import Mathlib

/-!
# dnstap text output: `TextOutput.go`

A shallow embedding of `TextOutput.go` (package `dnstap`): the sink that
receives encoded frames on a bounded channel, decodes and formats them in one
worker (`RunOutputLoop`) and is shut down by `Close`.

* `Dest` and `Writer` model the `io.Writer` handed to `NewTextOutput` and the
  `bufio.Writer` wrapped around it (`o.writer`).
* `TextOutput`, `NewTextOutput`, `NewTextOutputFromFilename`, `DoNothing` follow
  the declarations of the source.
* `stepWorker` and `stepCloser` execute `RunOutputLoop` and `Close` one
  statement at a time; `stepSend` is a producer sending on the channel returned
  by `GetOutputChannel`.  `Step` interleaves the three.
* `log.Fatalf` prints and calls `os.Exit(1)`: the report is recorded in the
  trace, the calling goroutine stays in the call (position `fatal`) and from
  then on no goroutine takes a step (`step`).  The `break` statements that
  follow the calls in the loop are never reached.
* Each call of `o.writer.Write` and `o.writer.Flush` is one step of the
  interleaving.
-/

namespace Dnstap

/-- A byte string, Go's `[]byte`: one natural number per byte. -/
abbrev Bytes := List Nat

/-! ## The destination (`io.Writer`) -/

/-- The destination stream behind the buffered writer.  `data` are the bytes it
has accepted; `room = none` is a destination that never fails, `room = some c`
one that accepts `c` more bytes and fails from then on. -/
structure Dest where
  data : Bytes
  room : Option Nat
deriving DecidableEq, Repr

/-- The destination's `Write(p)`: the new destination, the number of bytes
accepted and whether an error is returned. -/
def Dest.Write (d : Dest) (p : Bytes) : Dest × Nat × Bool :=
  match d.room with
  | none => ({ d with data := d.data ++ p }, p.length, false)
  | some c =>
    if p.length ≤ c then
      ({ data := d.data ++ p, room := some (c - p.length) }, p.length, false)
    else
      ({ data := d.data ++ p.take c, room := some 0 }, c, true)

/-! ## The buffered writer (`bufio.Writer`) -/

/-- State of a `bufio.Writer`: `size` is `len(b.buf)`, `buf` the pending bytes
`b.buf[0:b.n]`, `err` the sticky error `b.err != nil`, `wr` the wrapped
destination. -/
structure Writer where
  size : Nat
  buf : Bytes
  err : Bool
  wr : Dest
deriving DecidableEq, Repr

/-- The default buffer size of `bufio.NewWriter`. -/
def defaultBufSize : Nat := 4096

/-- `bufio.NewWriter(w)`. -/
def NewWriter (w : Dest) : Writer :=
  { size := defaultBufSize, buf := [], err := false, wr := w }

/-- `b.Buffered()`. -/
def Writer.Buffered (b : Writer) : Nat := b.buf.length

/-- `b.Available()`. -/
def Writer.Available (b : Writer) : Nat := b.size - b.buf.length

/-- `b.Flush()`: the new writer and whether an error is returned. -/
def Writer.Flush (b : Writer) : Writer × Bool :=
  if b.err then (b, true)
  else if b.buf.length = 0 then (b, false)
  else
    let r := b.wr.Write b.buf
    if r.2.2 || decide (r.2.1 < b.buf.length) then
      ({ b with buf := b.buf.drop r.2.1, err := true, wr := r.1 }, true)
    else
      ({ b with buf := [], wr := r.1 }, false)

/-- The `for len(p) > b.Available() && b.err == nil` loop of `b.Write(p)`,
bounded by `fuel` iterations; returns the writer, the rest of `p` and the count
`nn` of bytes taken so far. -/
def Writer.writeLoop : Nat → Writer → Bytes → Nat → Writer × Bytes × Nat
  | 0, b, p, nn => (b, p, nn)
  | fuel + 1, b, p, nn =>
    if p.length > b.Available ∧ b.err = false then
      if b.Buffered = 0 then
        let r := b.wr.Write p
        Writer.writeLoop fuel { b with wr := r.1, err := r.2.2 } (p.drop r.2.1) (nn + r.2.1)
      else
        let n := min b.Available p.length
        let b1 : Writer := { b with buf := b.buf ++ p.take n }
        Writer.writeLoop fuel b1.Flush.1 (p.drop n) (nn + n)
    else (b, p, nn)

/-- `b.Write(p)`: the new writer, the number of bytes taken and whether an
error is returned.  Two iterations of the loop always suffice
(`writeLoop_fuel`). -/
def Writer.Write (b : Writer) (p : Bytes) : Writer × Nat × Bool :=
  let r := Writer.writeLoop 2 b p 0
  if r.1.err then (r.1, r.2.2, true)
  else ({ r.1 with buf := r.1.buf ++ r.2.1 }, r.2.2 + r.2.1.length, false)

/-! ## The sink -/

/-- The buffered channel `o.outputChannel` (`chan []byte`): the frames queued in
it, its capacity and whether it has been closed. -/
structure Chan where
  queue : List Bytes
  cap : Nat
  closed : Bool
deriving DecidableEq, Repr

/-- What the source takes from outside this file: `Record` is the decoded
message type `Dnstap`, `empty` the zero value `Dnstap{}`, `unmarshalMerge` the
decoder of the protobuf library (merging a frame into a message, or failing)
and `outputChannelSize` the capacity constant of the package. -/
structure Env (Record : Type) where
  empty : Record
  unmarshalMerge : Bytes → Record → Option Record
  outputChannelSize : Nat

/-- `proto.Unmarshal(frame, dt)`: resets `dt` to the zero value, then merges
the frame into it.  `none` is a non-nil error. -/
def Env.Unmarshal {Record : Type} (env : Env Record) (frame : Bytes) (_dt : Record) :
    Option Record :=
  env.unmarshalMerge frame env.empty

/-- Type `TextFormatFunc` (and `TextFinishFunc`): `func(*Dnstap) ([]byte, bool)`. -/
abbrev TextFormatFunc (Record : Type) := Record → Bytes × Bool

/-- `DoNothing`: returns `nil, false` for every record. -/
def DoNothing {Record : Type} (_dt : Record) : Bytes × Bool := ([], false)

/-- The struct `TextOutput`.  `wait` is true once the channel `o.wait` has been
closed (nothing is ever sent on it). -/
structure TextOutput (Record : Type) where
  format : TextFormatFunc Record
  finish : TextFormatFunc Record
  outputChannel : Chan
  wait : Bool
  writer : Writer

/-- `NewTextOutput(writer, format, finish)`. -/
def NewTextOutput {Record : Type} (env : Env Record) (writer : Dest)
    (format finish : TextFormatFunc Record) : TextOutput Record :=
  { format := format
    finish := finish
    outputChannel := { queue := [], cap := env.outputChannelSize, closed := false }
    writer := NewWriter writer
    wait := false }

/-- `o.GetOutputChannel()`. -/
def TextOutput.GetOutputChannel {Record : Type} (o : TextOutput Record) : Chan :=
  o.outputChannel

/-! ## Construction from a file name -/

/-- Where a sink built by `NewTextOutputFromFilename` writes: `os.Stdout` or the
file returned by `os.Create`. -/
inductive Target (File : Type) where
  | stdout
  | file (f : File)
deriving DecidableEq, Repr

/-- Result of `NewTextOutputFromFilename`: the returned pair `(o, err)` (`none`
is `nil`) and the names `os.Create` was called with. -/
structure FromFilename (Record File Err : Type) where
  o : Option (TextOutput Record)
  err : Option Err
  created : List String

/-- `NewTextOutputFromFilename(fname, format, finish)`.  `create` is
`os.Create` (create or truncate the named file); `stream` gives the byte
stream behind `os.Stdout` and behind a created file. -/
def NewTextOutputFromFilename {Record File Err : Type} (env : Env Record)
    (create : String → Except Err File) (stream : Target File → Dest)
    (fname : String) (format finish : TextFormatFunc Record) :
    FromFilename Record File Err :=
  if fname = "" ∨ fname = "-" then
    { o := some (NewTextOutput env (stream .stdout) format finish), err := none,
      created := [] }
  else
    match create fname with
    | .error e => { o := none, err := some e, created := [fname] }
    | .ok w =>
      { o := some (NewTextOutput env (stream (.file w)) format finish), err := none,
        created := [fname] }

/-! ## `RunOutputLoop` and `Close`, statement by statement -/

/-- The four `log.Fatalf` calls of the file. -/
inductive Fatal where
  | unmarshalFailed
  | formatFailed
  | writeFailed
  | finishFailed
deriving DecidableEq, Repr

/-- The two functions that touch `o.writer`. -/
inductive Who where
  | worker
  | closer
deriving DecidableEq, Repr

/-- Effects recorded in the trace of an execution, oldest first.  `formatCall`
and `finishCall` carry the record the function was called on. -/
inductive Event (Record : Type) where
  | unmarshal (frame : Bytes)
  | formatCall (dt : Record)
  | finishCall (dt : Record)
  | write (who : Who) (p : Bytes)
  | flush (who : Who)
  | fatal (who : Who) (m : Fatal)
  | closeChannel
  | closeWait
deriving DecidableEq, Repr

/-- Position of the worker in `RunOutputLoop` (source lines 68 to 88).  `fatal`:
inside one of the `log.Fatalf` calls, which ends the process. -/
inductive WorkerPC where
  | start
  | recv
  | unmarshal (frame : Bytes)
  | format
  | write (buf : Bytes)
  | flush
  | closeWait
  | returned
  | fatal
deriving DecidableEq, Repr

/-- Position of the caller of `Close` (source lines 90 to 104); `finish` is the
entry of the function, before its first statement.  `fatal`: inside one of the
`log.Fatalf` calls, which ends the process. -/
inductive CloserPC where
  | finish
  | write (buf : Bytes)
  | flush1
  | closeChannel
  | wait
  | flush2
  | returned
  | fatal
deriving DecidableEq, Repr

/-- State of one sink with its worker, the caller of `Close` and a producer that
still has `pending` frames to send.  `dt` is the worker's record. -/
structure State (Record : Type) where
  o : TextOutput Record
  pending : List Bytes
  wpc : WorkerPC
  dt : Record
  cpc : CloserPC
  trace : List (Event Record)

/-- The state right after `NewTextOutput`: nothing has run yet. -/
def initState {Record : Type} (env : Env Record) (writer : Dest)
    (format finish : TextFormatFunc Record) (pending : List Bytes) : State Record :=
  { o := NewTextOutput env writer format finish
    pending := pending
    wpc := .start
    dt := env.empty
    cpc := .finish
    trace := [] }

/-- One statement of `RunOutputLoop`.  `none`: the worker is blocked on the
empty open channel, has returned, or is in `log.Fatalf`. -/
def stepWorker {Record : Type} (env : Env Record) (s : State Record) : Option (State Record) :=
  match s.wpc with
  | .start => some { s with dt := env.empty, wpc := .recv }
  | .recv =>
    match s.o.outputChannel.queue with
    | frame :: rest =>
      some { s with
        o := { s.o with outputChannel := { s.o.outputChannel with queue := rest } }
        wpc := .unmarshal frame }
    | [] => if s.o.outputChannel.closed then some { s with wpc := .closeWait } else none
  | .unmarshal frame =>
    match env.Unmarshal frame s.dt with
    | none =>
      some { s with
        wpc := .fatal
        trace := s.trace ++ [.unmarshal frame, .fatal .worker .unmarshalFailed] }
    | some r => some { s with dt := r, wpc := .format, trace := s.trace ++ [.unmarshal frame] }
  | .format =>
    if (s.o.format s.dt).2 then
      some { s with wpc := .write (s.o.format s.dt).1, trace := s.trace ++ [.formatCall s.dt] }
    else
      some { s with
        wpc := .fatal
        trace := s.trace ++ [.formatCall s.dt, .fatal .worker .formatFailed] }
  | .write buf =>
    if (s.o.writer.Write buf).2.2 then
      some { s with
        o := { s.o with writer := (s.o.writer.Write buf).1 }
        wpc := .fatal
        trace := s.trace ++ [.write .worker buf, .fatal .worker .writeFailed] }
    else
      some { s with
        o := { s.o with writer := (s.o.writer.Write buf).1 }
        wpc := .flush
        trace := s.trace ++ [.write .worker buf] }
  | .flush =>
    some { s with
      o := { s.o with writer := s.o.writer.Flush.1 }
      wpc := .recv
      trace := s.trace ++ [.flush .worker] }
  | .closeWait =>
    some { s with o := { s.o with wait := true }, wpc := .returned,
                  trace := s.trace ++ [.closeWait] }
  | .returned => none
  | .fatal => none

/-- One statement of `Close`.  `none`: the caller is blocked on `<-o.wait`,
`Close` has returned, or the caller is in `log.Fatalf`. -/
def stepCloser {Record : Type} (env : Env Record) (s : State Record) : Option (State Record) :=
  match s.cpc with
  | .finish =>
    if (s.o.finish env.empty).2 then
      some { s with cpc := .write (s.o.finish env.empty).1, trace := s.trace ++ [.finishCall env.empty] }
    else
      some { s with
        cpc := .fatal
        trace := s.trace ++ [.finishCall env.empty, .fatal .closer .finishFailed] }
  | .write buf =>
    if (s.o.writer.Write buf).2.2 then
      some { s with
        o := { s.o with writer := (s.o.writer.Write buf).1 }
        cpc := .fatal
        trace := s.trace ++ [.write .closer buf, .fatal .closer .writeFailed] }
    else
      some { s with
        o := { s.o with writer := (s.o.writer.Write buf).1 }
        cpc := .flush1
        trace := s.trace ++ [.write .closer buf] }
  | .flush1 =>
    some { s with
      o := { s.o with writer := s.o.writer.Flush.1 }
      cpc := .closeChannel
      trace := s.trace ++ [.flush .closer] }
  | .closeChannel =>
    some { s with
      o := { s.o with outputChannel := { s.o.outputChannel with closed := true } }
      cpc := .wait
      trace := s.trace ++ [.closeChannel] }
  | .wait => if s.o.wait then some { s with cpc := .flush2 } else none
  | .flush2 =>
    some { s with
      o := { s.o with writer := s.o.writer.Flush.1 }
      cpc := .returned
      trace := s.trace ++ [.flush .closer] }
  | .returned => none
  | .fatal => none

/-- A producer sends its next pending frame on the channel returned by
`GetOutputChannel`.  `none`: nothing left to send, the channel is full (the send
blocks) or closed. -/
def stepSend {Record : Type} (s : State Record) : Option (State Record) :=
  match s.pending with
  | [] => none
  | frame :: rest =>
    if s.o.outputChannel.closed = false ∧
        s.o.outputChannel.queue.length < s.o.outputChannel.cap then
      some { s with
        o := { s.o with
          outputChannel := { s.o.outputChannel with queue := s.o.outputChannel.queue ++ [frame] } }
        pending := rest }
    else none

/-- The three threads. -/
inductive Tid where
  | producer
  | worker
  | closer
deriving DecidableEq, Repr

/-- One step of thread `t`.  Once the worker or the caller of `Close` is in
`log.Fatalf` the process has exited and no thread steps. -/
def step {Record : Type} (env : Env Record) (t : Tid) (s : State Record) :
    Option (State Record) :=
  if s.wpc = .fatal ∨ s.cpc = .fatal then none
  else
    match t with
    | .producer => stepSend s
    | .worker => stepWorker env s
    | .closer => stepCloser env s

/-- The step relation: some thread takes one step. -/
def Step {Record : Type} (env : Env Record) (s s' : State Record) : Prop :=
  ∃ t, step env t s = some s'

/-- States reachable from `s` by any interleaving. -/
def Reachable {Record : Type} (env : Env Record) (s s' : State Record) : Prop :=
  Relation.ReflTransGen (Step env) s s'

/-- Run a schedule: the listed threads take one step each, in order; `none` if
a scheduled thread cannot step. -/
def run {Record : Type} (env : Env Record) : List Tid → State Record → Option (State Record)
  | [], s => some s
  | t :: ts, s =>
    match step env t s with
    | some s' => run env ts s'
    | none => none

/-- The worker alone: up to `fuel` statements of `RunOutputLoop`. -/
def runWorker {Record : Type} (env : Env Record) : Nat → State Record → State Record
  | 0, s => s
  | fuel + 1, s =>
    match stepWorker env s with
    | some s' => runWorker env fuel s'
    | none => s

/-! ## Vocabulary of the statements -/

/-- The block of a frame: the bytes `format` returns for the decoded record;
`none` when `proto.Unmarshal` fails or `format` returns `ok = false`. -/
def block {Record : Type} (env : Env Record) (format : TextFormatFunc Record)
    (frame : Bytes) : Option Bytes :=
  match env.Unmarshal frame env.empty with
  | none => none
  | some r => if (format r).2 then some (format r).1 else none

/-- The blocks of a list of frames, one after the other. -/
def blocks {Record : Type} (env : Env Record) (format : TextFormatFunc Record)
    (frames : List Bytes) : Bytes :=
  (frames.filterMap (block env format)).flatten

/-- What the worker does for a frame that decodes and formats: decode, format
the decoded record, write the block, flush. -/
def okEvents {Record : Type} (env : Env Record) (format : TextFormatFunc Record)
    (frame : Bytes) : List (Event Record) :=
  match env.Unmarshal frame env.empty with
  | none => []
  | some r => [.unmarshal frame, .formatCall r, .write .worker (format r).1, .flush .worker]

/-- What the worker does for a frame that fails to decode or to format. -/
def failEvents {Record : Type} (env : Env Record) (frame : Bytes) : List (Event Record) :=
  match env.Unmarshal frame env.empty with
  | none => [.unmarshal frame, .fatal .worker .unmarshalFailed]
  | some r => [.unmarshal frame, .formatCall r, .fatal .worker .formatFailed]

/-- How many times `close(o.wait)` was executed in a trace. -/
def closeWaits {Record : Type} (trace : List (Event Record)) : Nat :=
  trace.countP fun e =>
    match e with
    | .closeWait => true
    | _ => false

/-- The records the finish function was called on in a trace. -/
def finishArgs {Record : Type} (trace : List (Event Record)) : List Record :=
  trace.filterMap fun e =>
    match e with
    | .finishCall r => some r
    | _ => none

/-- What the worker does for a frame that decodes and formats but whose `Write`
returns an error. -/
def writeFailEvents {Record : Type} (env : Env Record) (format : TextFormatFunc Record)
    (frame : Bytes) : List (Event Record) :=
  match env.Unmarshal frame env.empty with
  | none => []
  | some r =>
    [.unmarshal frame, .formatCall r, .write .worker (format r).1, .fatal .worker .writeFailed]

/-- The writer after the blocks `bs` were passed to `Write`, each followed by
`Flush`, as the loop does. -/
def Writer.afterBlocks (w : Writer) : List Bytes → Writer
  | [] => w
  | b :: bs => Writer.afterBlocks (w.Write b).1.Flush.1 bs

/-- None of the `Write` calls of the loop for the blocks `bs` returns an error. -/
def Writer.acceptsAll (w : Writer) : List Bytes → Bool
  | [] => true
  | b :: bs => !(w.Write b).2.2 && Writer.acceptsAll (w.Write b).1.Flush.1 bs

/-- The fatal errors `who` has reported in a trace. -/
def fatals {Record : Type} (who : Who) (trace : List (Event Record)) : List Fatal :=
  trace.filterMap fun e =>
    match e with
    | .fatal w m => if w = who then some m else none
    | _ => none

/-- The byte strings `who` has passed to `o.writer.Write` in a trace. -/
def writes {Record : Type} (who : Who) (trace : List (Event Record)) : List Bytes :=
  trace.filterMap fun e =>
    match e with
    | .write w p => if w = who then some p else none
    | _ => none

/-- A writer that has seen no error, over a destination that never fails. -/
def Writer.Healthy (b : Writer) : Prop := b.err = false ∧ b.wr.room = none

/-! ## A small sink for concrete runs -/

/-- A decoder for concrete runs: a frame of one byte decodes to that byte, any
other frame fails to decode; the empty record is `0`. -/
def demoEnv : Env Nat :=
  { empty := 0
    unmarshalMerge := fun frame _ =>
      match frame with
      | [n] => some n
      | _ => none
    outputChannelSize := 4 }

/-- A format function for concrete runs: the block of record `r` is the byte
`r`; records from `100` on cannot be rendered. -/
def demoFormat : TextFormatFunc Nat := fun r => ([r], decide (r < 100))

/-- A finish function for concrete runs: the trailer is the byte `99`. -/
def demoFinish : TextFormatFunc Nat := fun _ => ([99], true)

/-- A fresh sink of `demoEnv` on `dest` whose channel already holds `queue`;
worker and `Close` have not started. -/
def demoState (dest : Dest) (queue : List Bytes) (closed : Bool) : State Nat :=
  { o :=
      { NewTextOutput demoEnv dest demoFormat demoFinish with
        outputChannel := { queue := queue, cap := demoEnv.outputChannelSize, closed := closed } }
    pending := []
    wpc := .start
    dt := demoEnv.empty
    cpc := .finish
    trace := [] }

/-- The `Write` calls of a trace, in order. -/
def writeEvents {Record : Type} (trace : List (Event Record)) : List (Who × Bytes) :=
  trace.filterMap fun e =>
    match e with
    | .write w p => some (w, p)
    | _ => none

/-- A complete run of one frame: the worker starts and reaches the receive, the
producer sends the frame, `Close` is called and runs up to `<-o.wait` while the
frame is still queued, the worker then drains the channel and returns, `Close`
returns. -/
def closeFirstSchedule : List Tid :=
  [.worker, .producer, .closer, .closer, .closer, .closer,
    .worker, .worker, .worker, .worker, .worker, .worker, .worker,
    .closer, .closer]

/-- A complete run of three frames: all are sent, the worker handles the first
one, `Close` is called with two frames still queued and runs up to `<-o.wait`,
the worker handles the two frames and returns, `Close` returns. -/
def closeMidSchedule : List Tid :=
  [.producer, .producer, .producer,
    .worker, .worker, .worker, .worker, .worker, .worker,
    .closer, .closer, .closer, .closer,
    .worker, .worker, .worker, .worker, .worker,
    .worker, .worker, .worker, .worker, .worker,
    .worker, .worker,
    .closer, .closer]

/-- A complete run without frames: `Close` runs up to `<-o.wait`, the worker
starts, finds the channel closed and returns, `Close` returns. -/
def closeOnlySchedule : List Tid :=
  [.closer, .closer, .closer, .closer, .worker, .worker, .worker, .closer, .closer]

/-- The state a schedule leads to from `s` (`s` itself if the schedule cannot
be run). -/
def runFrom {Record : Type} (env : Env Record) (sched : List Tid) (s : State Record) :
    State Record :=
  (run env sched s).getD s

/-! ## Theorems: the buffered writer -/

theorem Dest.Write_len (d : Dest) (p : Bytes) (h : (d.Write p).2.2 = false) :
    (d.Write p).2.1 = p.length := by
  unfold Dest.Write at *
  cases hr : d.room with
  | none => simp
  | some c =>
    simp only [hr] at h ⊢
    by_cases hc : p.length ≤ c
    · simp [hc]
    · simp [hc] at h

theorem Writer.writeLoop_done (n : Nat) (b : Writer) (p : Bytes) (nn : Nat)
    (h : ¬ (p.length > b.Available ∧ b.err = false)) :
    Writer.writeLoop n b p nn = (b, p, nn) := by
  cases n with
  | zero => rfl
  | succ n => simp only [Writer.writeLoop, h, if_false]

theorem Writer.writeLoop_succ_direct (n : Nat) (b : Writer) (p : Bytes) (nn : Nat)
    (hc : p.length > b.Available ∧ b.err = false) (hb : b.Buffered = 0) :
    Writer.writeLoop (n + 1) b p nn =
      Writer.writeLoop n { b with wr := (b.wr.Write p).1, err := (b.wr.Write p).2.2 }
        (p.drop (b.wr.Write p).2.1) (nn + (b.wr.Write p).2.1) := by
  rw [Writer.writeLoop, if_pos hc, if_pos hb]

theorem Writer.writeLoop_succ_fill (n : Nat) (b : Writer) (p : Bytes) (nn : Nat)
    (hc : p.length > b.Available ∧ b.err = false) (hb : ¬ b.Buffered = 0) :
    Writer.writeLoop (n + 1) b p nn =
      Writer.writeLoop n
        (Writer.Flush { b with buf := b.buf ++ p.take (min b.Available p.length) }).1
        (p.drop (min b.Available p.length)) (nn + min b.Available p.length) := by
  rw [Writer.writeLoop, if_pos hc, if_neg hb]

theorem Writer.Flush_err_or_empty (b : Writer) : b.Flush.1.err = true ∨ b.Flush.1.buf = [] := by
  unfold Writer.Flush
  split_ifs with h1 h2
  · exact Or.inl h1
  · exact Or.inr (List.length_eq_zero.mp h2)
  · simp only []
    split_ifs
    · exact Or.inl rfl
    · exact Or.inr rfl

theorem Writer.writeLoop_direct (n : Nat) (b : Writer) (p : Bytes) (nn : Nat)
    (hb : b.Buffered = 0) :
    Writer.writeLoop (n + 1) b p nn = Writer.writeLoop 1 b p nn := by
  by_cases hc : p.length > b.Available ∧ b.err = false
  · rw [Writer.writeLoop_succ_direct n b p nn hc hb, Writer.writeLoop_succ_direct 0 b p nn hc hb]
    have hd : ¬ ((p.drop (b.wr.Write p).2.1).length >
        Writer.Available { b with wr := (b.wr.Write p).1, err := (b.wr.Write p).2.2 } ∧
        (b.wr.Write p).2.2 = false) := by
      rintro ⟨h1, h2⟩
      have := Dest.Write_len b.wr p h2
      simp [this] at h1
    rw [Writer.writeLoop_done _ _ _ _ hd, Writer.writeLoop_done _ _ _ _ hd]
  · rw [Writer.writeLoop_done _ _ _ _ hc, Writer.writeLoop_done _ _ _ _ hc]

/-- Two iterations of the loop of `Write` are always enough: more fuel does not
change the result. -/
theorem Writer.writeLoop_fuel (n : Nat) (b : Writer) (p : Bytes) (nn : Nat) :
    Writer.writeLoop (n + 2) b p nn = Writer.writeLoop 2 b p nn := by
  by_cases hc : p.length > b.Available ∧ b.err = false
  · by_cases hb : b.Buffered = 0
    · rw [Writer.writeLoop_direct (n + 1) b p nn hb, Writer.writeLoop_direct 1 b p nn hb]
    · rw [Writer.writeLoop_succ_fill (n + 1) b p nn hc hb, Writer.writeLoop_succ_fill 1 b p nn hc hb]
      generalize hB : (Writer.Flush
        { b with buf := b.buf ++ List.take (min b.Available p.length) p }).1 = B
      rcases Writer.Flush_err_or_empty
        { b with buf := b.buf ++ List.take (min b.Available p.length) p } with h | h
      · rw [hB] at h
        rw [Writer.writeLoop_done _ _ _ _ (by simp [h]), Writer.writeLoop_done _ _ _ _ (by simp [h])]
      · rw [hB] at h
        exact Writer.writeLoop_direct n B _ _ (by simp [Writer.Buffered, h])
  · rw [Writer.writeLoop_done _ _ _ _ hc, Writer.writeLoop_done _ _ _ _ hc]

/-- Flushing a writer that has seen no error over a destination that never
fails moves the pending bytes to the destination. -/
theorem Writer.Flush_healthy (b : Writer) (he : b.err = false) (hr : b.wr.room = none) :
    b.Flush = ({ b with buf := [], wr := { data := b.wr.data ++ b.buf, room := none } }, false) := by
  unfold Writer.Flush
  rw [if_neg (by simp [he])]
  by_cases hb : b.buf.length = 0
  · rw [if_pos hb]
    have : b.buf = [] := List.length_eq_zero.mp hb
    cases b with
    | mk size buf err wr =>
      cases wr with
      | mk data room =>
        simp only at this hr
        subst this; subst hr
        simp
  · rw [if_neg hb]
    simp [Dest.Write, hr, he]

theorem Writer.Write_healthy (b : Writer) (p : Bytes) (he : b.err = false)
    (hr : b.wr.room = none) :
    (b.Write p).2.2 = false ∧ (b.Write p).1.err = false ∧ (b.Write p).1.wr.room = none ∧
      (b.Write p).1.size = b.size ∧
      (b.Write p).1.wr.data ++ (b.Write p).1.buf = b.wr.data ++ b.buf ++ p := by
  unfold Writer.Write
  by_cases hc : p.length > b.Available ∧ b.err = false
  · by_cases hb : b.Buffered = 0
    · rw [Writer.writeLoop_succ_direct 1 b p 0 hc hb]
      rw [Writer.writeLoop_done _ _ _ _ (by simp [Dest.Write, hr])]
      simp [Writer.Buffered] at hb
      simp [hb, Dest.Write, hr]
    · rw [Writer.writeLoop_succ_fill 1 b p 0 hc hb]
      have hF := Writer.Flush_healthy
        { b with buf := b.buf ++ List.take (min b.Available p.length) p } he hr
      rw [hF]
      simp only []
      by_cases hc2 : (List.drop (min b.Available p.length) p).length > b.size
      · rw [Writer.writeLoop_succ_direct 0 _ _ _ (by simp [Writer.Available, he]; simpa using hc2)
          (by simp [Writer.Buffered])]
        simp [Dest.Write, Writer.writeLoop]
      · rw [Writer.writeLoop_done _ _ _ _ (by
          rintro ⟨h1, _⟩
          exact hc2 (by simpa [Writer.Available] using h1))]
        simp [he]
  · rw [Writer.writeLoop_done _ _ _ _ hc]
    simp [he, hr]

theorem Writer.Write_Flush_healthy (b : Writer) (p : Bytes) (h : b.Healthy) :
    (b.Write p).1.Flush.1 =
      { size := b.size, buf := [], err := false,
        wr := { data := b.wr.data ++ b.buf ++ p, room := none } } := by
  obtain ⟨_, h2, h3, h4, h5⟩ := Writer.Write_healthy b p h.1 h.2
  rw [Writer.Flush_healthy _ h2 h3]
  simp [h2, h4, h5]

/-! ## The worker alone -/

theorem Writer.acceptsAll_healthy (bs : List Bytes) :
    ∀ (w : Writer), w.Healthy → w.acceptsAll bs = true := by
  induction bs with
  | nil => intro w _; rfl
  | cons b bs ih =>
    intro w hw
    have h1 := (Writer.Write_healthy w b hw.1 hw.2).1
    have h2 := Writer.Write_Flush_healthy w b hw
    simp only [Writer.acceptsAll, h1, Bool.not_false, Bool.true_and]
    exact ih _ (by rw [h2]; exact ⟨rfl, rfl⟩)

theorem Writer.afterBlocks_healthy (bs : List Bytes) :
    ∀ (w : Writer), w.Healthy → w.buf = [] →
      w.afterBlocks bs = Writer.mk w.size [] false (Dest.mk (w.wr.data ++ bs.flatten) none) := by
  induction bs with
  | nil =>
    intro w hw hbuf
    obtain ⟨he, hr⟩ := hw
    cases w with
    | mk size buf err wr =>
      cases wr with
      | mk data room =>
        simp only at he hr hbuf
        simp [Writer.afterBlocks, he, hr, hbuf]
  | cons b bs ih =>
    intro w hw hbuf
    have h2 := Writer.Write_Flush_healthy w b hw
    simp only [Writer.afterBlocks]
    rw [ih _ (by rw [h2]; exact ⟨rfl, rfl⟩) (by rw [h2]), h2, hbuf]
    simp

/-- One frame that decodes and formats and whose `Write` returns no error: five
statements of the loop. -/
theorem runWorker_frame_accept {Record : Type} (env : Env Record) (s : State Record) (n : Nat)
    (f : Bytes) (rest : List Bytes) (blk : Bytes)
    (hpc : s.wpc = .recv) (hq : s.o.outputChannel.queue = f :: rest)
    (hb : block env s.o.format f = some blk) (hw : (s.o.writer.Write blk).2.2 = false) :
    ∃ s', runWorker env (n + 5) s = runWorker env n s' ∧ s'.wpc = .recv ∧
      s'.o.outputChannel = { s.o.outputChannel with queue := rest } ∧
      s'.o.writer = (s.o.writer.Write blk).1.Flush.1 ∧
      s'.o.format = s.o.format ∧ s'.o.finish = s.o.finish ∧ s'.o.wait = s.o.wait ∧
      s'.cpc = s.cpc ∧ s'.pending = s.pending ∧
      s'.trace = s.trace ++ okEvents env s.o.format f := by
  unfold block at hb
  cases hu : env.Unmarshal f env.empty with
  | none => simp [hu] at hb
  | some r =>
    simp only [hu] at hb
    by_cases hf : (s.o.format r).2 = true
    · simp only [hf, if_true, Option.some.injEq] at hb
      have hu2 : env.Unmarshal f s.dt = some r := hu
      refine ⟨{ s with
          o := { s.o with
            outputChannel := { s.o.outputChannel with queue := rest }
            writer := (s.o.writer.Write blk).1.Flush.1 }
          dt := r
          wpc := .recv
          trace := s.trace ++ [.unmarshal f] ++ [.formatCall r] ++ [.write .worker blk] ++
            [.flush .worker] }, ?_, ?_⟩
      · show runWorker env (n + 1 + 1 + 1 + 1 + 1) s = _
        simp [runWorker, stepWorker, hpc, hq, hu2, hf, hb, hw]
      · simp [okEvents, hu, hb]
    · simp [hf] at hb

theorem blocks_cons {Record : Type} (env : Env Record) (format : TextFormatFunc Record)
    (f : Bytes) (fs : List Bytes) (blk : Bytes) (h : block env format f = some blk) :
    blocks env format (f :: fs) = blk ++ blocks env format fs := by
  simp [blocks, List.filterMap_cons, h]

/-- Frames that decode and format and whose `Write` calls return no error are
written and flushed one by one: five statements of the loop per frame. -/
theorem runWorker_frames_accept {Record : Type} (env : Env Record) (pre : List Bytes) :
    ∀ (s : State Record) (n : Nat) (rest : List Bytes),
      s.wpc = .recv → s.o.outputChannel.queue = pre ++ rest →
      (∀ f ∈ pre, (block env s.o.format f).isSome = true) →
      s.o.writer.acceptsAll (pre.filterMap (block env s.o.format)) = true →
      ∃ s', runWorker env (n + 5 * pre.length) s = runWorker env n s' ∧ s'.wpc = .recv ∧
        s'.o.outputChannel = { s.o.outputChannel with queue := rest } ∧
        s'.o.writer = s.o.writer.afterBlocks (pre.filterMap (block env s.o.format)) ∧
        s'.o.format = s.o.format ∧ s'.o.finish = s.o.finish ∧ s'.o.wait = s.o.wait ∧
        s'.cpc = s.cpc ∧ s'.pending = s.pending ∧
        s'.trace = s.trace ++ (pre.map (okEvents env s.o.format)).flatten := by
  induction pre with
  | nil =>
    intro s n rest hpc hq _ _
    refine ⟨s, rfl, hpc, ?_, rfl, rfl, rfl, rfl, rfl, rfl, by simp⟩
    simp only [List.nil_append] at hq
    rw [← hq]
  | cons f pre ih =>
    intro s n rest hpc hq hall hacc
    obtain ⟨blk, hb⟩ := Option.isSome_iff_exists.mp (hall f (List.mem_cons_self _ _))
    simp only [List.filterMap_cons, hb, Writer.acceptsAll, Bool.and_eq_true,
      Bool.not_eq_true'] at hacc
    obtain ⟨s1, h1, hpc1, hch1, hw1, hfmt1, hfin1, hwait1, hcpc1, hpend1, htr1⟩ :=
      runWorker_frame_accept env s (n + 5 * pre.length) f (pre ++ rest) blk hpc
        (by simpa using hq) hb hacc.1
    obtain ⟨s2, h2, hpc2, hch2, hw2, hfmt2, hfin2, hwait2, hcpc2, hpend2, htr2⟩ :=
      ih s1 n rest hpc1 (by rw [hch1])
        (by
          intro g hg
          rw [hfmt1]
          exact hall g (List.mem_cons_of_mem _ hg))
        (by rw [hw1, hfmt1]; exact hacc.2)
    refine ⟨s2, ?_, hpc2, ?_, ?_, ?_, ?_, ?_, ?_, ?_, ?_⟩
    · have hlen : n + 5 * (f :: pre).length = n + 5 * pre.length + 5 := by
        simp only [List.length_cons]
        omega
      rw [hlen, h1, h2]
    · rw [hch2, hch1]
    · rw [hw2, hw1, hfmt1]
      simp [List.filterMap_cons, hb, Writer.afterBlocks]
    · rw [hfmt2, hfmt1]
    · rw [hfin2, hfin1]
    · rw [hwait2, hwait1]
    · rw [hcpc2, hcpc1]
    · rw [hpend2, hpend1]
    · rw [htr2, htr1, hfmt1]
      simp

/-- The same with a writer that has seen no error over a destination that never
fails: every block reaches the destination. -/
theorem runWorker_frames_ok {Record : Type} (env : Env Record) (pre : List Bytes)
    (s : State Record) (n : Nat) (rest : List Bytes)
    (hpc : s.wpc = .recv) (hq : s.o.outputChannel.queue = pre ++ rest)
    (hw : s.o.writer.Healthy) (hbuf : s.o.writer.buf = [])
    (hall : ∀ f ∈ pre, (block env s.o.format f).isSome = true) :
    ∃ s', runWorker env (n + 5 * pre.length) s = runWorker env n s' ∧ s'.wpc = .recv ∧
      s'.o.outputChannel = { s.o.outputChannel with queue := rest } ∧
      s'.o.writer = Writer.mk s.o.writer.size [] false
        (Dest.mk (s.o.writer.wr.data ++ blocks env s.o.format pre) none) ∧
      s'.o.format = s.o.format ∧ s'.o.finish = s.o.finish ∧ s'.o.wait = s.o.wait ∧
      s'.cpc = s.cpc ∧ s'.pending = s.pending ∧
      s'.trace = s.trace ++ (pre.map (okEvents env s.o.format)).flatten := by
  obtain ⟨s', h1, h2, h3, h4, h5⟩ :=
    runWorker_frames_accept env pre s n rest hpc hq hall (Writer.acceptsAll_healthy _ _ hw)
  refine ⟨s', h1, h2, h3, ?_, h5⟩
  rw [h4, Writer.afterBlocks_healthy _ _ hw hbuf]
  rfl

theorem runWorker_returned {Record : Type} (env : Env Record) (n : Nat) (s : State Record)
    (h : s.wpc = .returned) : runWorker env n s = s := by
  cases n with
  | zero => rfl
  | succ n => simp [runWorker, stepWorker, h]

theorem runWorker_fatal {Record : Type} (env : Env Record) (n : Nat) (s : State Record)
    (h : s.wpc = .fatal) : runWorker env n s = s := by
  cases n with
  | zero => rfl
  | succ n => simp [runWorker, stepWorker, h]

theorem runWorker_blocked {Record : Type} (env : Env Record) (n : Nat) (s : State Record)
    (h : stepWorker env s = none) : runWorker env n s = s := by
  cases n with
  | zero => rfl
  | succ n => simp [runWorker, h]

theorem step_fatal {Record : Type} (env : Env Record) (t : Tid) (s : State Record)
    (h : s.wpc = .fatal ∨ s.cpc = .fatal) : step env t s = none := by
  simp [step, h]

/-- The frame that fails to decode or to format: the loop reports it and the
process ends in `log.Fatalf`; `o.wait` is left as it was. -/
theorem runWorker_frame_bad {Record : Type} (env : Env Record) (s : State Record) (n : Nat)
    (bad : Bytes) (post : List Bytes)
    (hpc : s.wpc = .recv) (hq : s.o.outputChannel.queue = bad :: post)
    (hb : block env s.o.format bad = none) :
    ∃ s', runWorker env (n + 3) s = s' ∧ s'.wpc = .fatal ∧
      s'.o.outputChannel = { s.o.outputChannel with queue := post } ∧
      s'.o.writer = s.o.writer ∧ s'.o.wait = s.o.wait ∧
      s'.trace = s.trace ++ failEvents env bad := by
  unfold block at hb
  cases hu : env.Unmarshal bad env.empty with
  | none =>
    have hu2 : env.Unmarshal bad s.dt = none := hu
    refine ⟨_, rfl, ?_⟩
    show (runWorker env (n + 1 + 1 + 1) s).wpc = _ ∧ _
    simp [runWorker, stepWorker, hpc, hq, hu2, runWorker_fatal, failEvents, hu]
  | some r =>
    have hu2 : env.Unmarshal bad s.dt = some r := hu
    simp only [hu] at hb
    have hf : (s.o.format r).2 = false := by
      by_cases h : (s.o.format r).2 = true
      · simp [h] at hb
      · simpa using h
    refine ⟨_, rfl, ?_⟩
    show (runWorker env (n + 1 + 1 + 1) s).wpc = _ ∧ _
    simp [runWorker, stepWorker, hpc, hq, hu2, hf, runWorker_fatal, failEvents, hu]

/-- The frame whose `Write` returns an error: the loop reports it and the process
ends in `log.Fatalf`; `o.wait` is left as it was. -/
theorem runWorker_frame_writefail {Record : Type} (env : Env Record) (s : State Record)
    (n : Nat) (bad : Bytes) (post : List Bytes) (blk : Bytes)
    (hpc : s.wpc = .recv) (hq : s.o.outputChannel.queue = bad :: post)
    (hb : block env s.o.format bad = some blk) (hw : (s.o.writer.Write blk).2.2 = true) :
    ∃ s', runWorker env (n + 4) s = s' ∧ s'.wpc = .fatal ∧
      s'.o.outputChannel = { s.o.outputChannel with queue := post } ∧
      s'.o.writer = (s.o.writer.Write blk).1 ∧ s'.o.wait = s.o.wait ∧
      s'.trace = s.trace ++ writeFailEvents env s.o.format bad := by
  unfold block at hb
  cases hu : env.Unmarshal bad env.empty with
  | none => simp [hu] at hb
  | some r =>
    have hu2 : env.Unmarshal bad s.dt = some r := hu
    simp only [hu] at hb
    by_cases hf : (s.o.format r).2 = true
    · simp only [hf, if_true, Option.some.injEq] at hb
      refine ⟨_, rfl, ?_⟩
      show (runWorker env (n + 1 + 1 + 1 + 1) s).wpc = _ ∧ _
      simp [runWorker, stepWorker, hpc, hq, hu2, hf, hb, hw, runWorker_fatal, writeFailEvents, hu]
    · simp [hf] at hb

theorem closeWaits_append {Record : Type} (a b : List (Event Record)) :
    closeWaits (a ++ b) = closeWaits a + closeWaits b := by
  simp [closeWaits, List.countP_append]

theorem closeWaits_okEvents {Record : Type} (env : Env Record) (format : TextFormatFunc Record)
    (fs : List Bytes) : closeWaits ((fs.map (okEvents env format)).flatten) = 0 := by
  induction fs with
  | nil => rfl
  | cons f fs ih =>
    simp only [List.map_cons, List.flatten_cons, closeWaits_append, ih, Nat.add_zero]
    unfold okEvents
    cases env.Unmarshal f env.empty <;> simp [closeWaits]

theorem closeWaits_failEvents {Record : Type} (env : Env Record) (f : Bytes) :
    closeWaits (failEvents env f) = 0 := by
  unfold failEvents
  cases env.Unmarshal f env.empty <;> simp [closeWaits]

theorem closeWaits_writeFailEvents {Record : Type} (env : Env Record)
    (format : TextFormatFunc Record) (f : Bytes) :
    closeWaits (writeFailEvents env format f) = 0 := by
  unfold writeFailEvents
  cases env.Unmarshal f env.empty <;> simp [closeWaits]

/-- C3: when frames `pre` decode and format and the next frame `bad` is the
first one whose decoding fails or whose format function returns `ok = false`,
`RunOutputLoop` (with a writer that does not fail) reports one fatal error for
`bad` and stops there, the process ending in `log.Fatalf`: the destination
holds the blocks of `pre` in order, nothing is written for `bad`, the frames
after it stay in the channel, never decoded, formatted or written, and no
thread takes a further step. -/
theorem RunOutputLoop_stops_at_first_failure {Record : Type} (env : Env Record)
    (s : State Record) (pre : List Bytes) (bad : Bytes) (post : List Bytes) (fuel : Nat)
    (hpc : s.wpc = .start) (hq : s.o.outputChannel.queue = pre ++ bad :: post)
    (hw : s.o.writer.Healthy) (hbuf : s.o.writer.buf = [])
    (hpre : ∀ f ∈ pre, (block env s.o.format f).isSome = true)
    (hbad : block env s.o.format bad = none)
    (hfuel : 5 * pre.length + 4 ≤ fuel) :
    (runWorker env fuel s).wpc = .fatal ∧
    (runWorker env fuel s).trace =
      s.trace ++ (pre.map (okEvents env s.o.format)).flatten ++ failEvents env bad ∧
    (fatals .worker (failEvents env bad) = [.unmarshalFailed] ∨
      fatals .worker (failEvents env bad) = [.formatFailed]) ∧
    (runWorker env fuel s).o.writer.wr.data = s.o.writer.wr.data ++ blocks env s.o.format pre ∧
    (runWorker env fuel s).o.writer.buf = [] ∧
    (runWorker env fuel s).o.outputChannel.queue = post ∧
    (∀ t, step env t (runWorker env fuel s) = none) := by
  obtain ⟨k, rfl⟩ : ∃ k, fuel = (k + 3) + 5 * pre.length + 1 := ⟨fuel - (5 * pre.length + 4), by omega⟩
  have h0 : runWorker env ((k + 3) + 5 * pre.length + 1) s =
      runWorker env ((k + 3) + 5 * pre.length) { s with dt := env.empty, wpc := .recv } := by
    simp [runWorker, stepWorker, hpc]
  obtain ⟨s1, h1, hpc1, hch1, hw1, hfmt1, -, -, -, -, htr1⟩ :=
    runWorker_frames_ok env pre { s with dt := env.empty, wpc := .recv } (k + 3) (bad :: post)
      rfl hq hw hbuf hpre
  obtain ⟨s2, h2, hpc2, hch2, hw2, -, htr2⟩ :=
    runWorker_frame_bad env s1 k bad post hpc1 (by rw [hch1]) (by rw [hfmt1]; exact hbad)
  rw [h0, h1, h2]
  refine ⟨hpc2, ?_, ?_, ?_, ?_, ?_, ?_⟩
  · rw [htr2, htr1]
  · unfold failEvents
    cases env.Unmarshal bad env.empty <;> simp [fatals]
  · rw [hw2, hw1]
  · rw [hw2, hw1]
  · rw [hch2, hch1]
  · intro t
    exact step_fatal env t s2 (Or.inl hpc2)

/-- C10: with frames that all decode and format and a writer that does not
fail, after the loop has processed `i` frames (it is back at the receive) the
buffered writer holds no pending bytes and the destination holds exactly the
blocks of the first `i` frames. -/
theorem RunOutputLoop_flushes_every_record {Record : Type} (env : Env Record)
    (s : State Record) (frames : List Bytes) (i : Nat)
    (hpc : s.wpc = .start) (hq : s.o.outputChannel.queue = frames)
    (hw : s.o.writer.Healthy) (hbuf : s.o.writer.buf = [])
    (hall : ∀ f ∈ frames, (block env s.o.format f).isSome = true)
    (hi : i ≤ frames.length) :
    (runWorker env (5 * i + 1) s).wpc = .recv ∧
    (runWorker env (5 * i + 1) s).o.outputChannel.queue = frames.drop i ∧
    (runWorker env (5 * i + 1) s).o.writer.buf = [] ∧
    (runWorker env (5 * i + 1) s).o.writer.wr.data =
      s.o.writer.wr.data ++ blocks env s.o.format (frames.take i) := by
  have h0 : runWorker env (5 * i + 1) s =
      runWorker env (0 + 5 * (frames.take i).length) { s with dt := env.empty, wpc := .recv } := by
    rw [List.length_take, Nat.min_eq_left hi, Nat.zero_add]
    simp [runWorker, stepWorker, hpc]
  obtain ⟨s1, h1, hpc1, hch1, hw1, -⟩ :=
    runWorker_frames_ok env (frames.take i) { s with dt := env.empty, wpc := .recv } 0
      (frames.drop i) rfl (by simpa using hq) hw hbuf
      (fun f hf => hall f (List.mem_of_mem_take hf))
  rw [h0, h1]
  show s1.wpc = _ ∧ s1.o.outputChannel.queue = _ ∧ s1.o.writer.buf = _ ∧ s1.o.writer.wr.data = _
  refine ⟨hpc1, ?_, ?_, ?_⟩
  · rw [hch1]
  · rw [hw1]
  · rw [hw1]

/-- C8, amended: one run of `RunOutputLoop`, with any writer, decoder and format
function, given fuel for every statement.  If the channel is closed, every
frame decodes and formats and no `Write` returns an error, the loop drains the
channel and the worker returns having closed `o.wait` exactly once, as its last
effect; the caller of `Close` waiting on `<-o.wait` can then go on.  If a frame
`bad` (after frames `pre` handled without failure) fails to decode or to
format, or its `Write` returns an error, the worker reports it and the process
ends in `log.Fatalf`: `o.wait` is not closed, the frames after `bad` stay in
the channel and no thread takes a further step, wherever `Close` stands.  If
the channel is open and all frames are handled without failure, the worker
waits at the receive on the empty channel and `o.wait` is not closed. -/
theorem RunOutputLoop_closes_wait_on_drain_only {Record : Type} (env : Env Record)
    (s : State Record) (frames : List Bytes) (fuel : Nat)
    (hpc : s.wpc = .start) (hq : s.o.outputChannel.queue = frames)
    (hfuel : 5 * frames.length + 3 ≤ fuel) :
    (s.o.outputChannel.closed = true →
      (∀ f ∈ frames, (block env s.o.format f).isSome = true) →
      s.o.writer.acceptsAll (frames.filterMap (block env s.o.format)) = true →
      (runWorker env fuel s).wpc = .returned ∧
      (runWorker env fuel s).o.outputChannel.queue = [] ∧
      (runWorker env fuel s).trace =
        s.trace ++ (frames.map (okEvents env s.o.format)).flatten ++ [.closeWait] ∧
      closeWaits (runWorker env fuel s).trace = closeWaits s.trace + 1 ∧
      (runWorker env fuel s).o.wait = true ∧
      (runWorker env fuel s).o.writer =
        s.o.writer.afterBlocks (frames.filterMap (block env s.o.format)) ∧
      (stepCloser env { runWorker env fuel s with cpc := .wait }).isSome = true) ∧
    (∀ pre bad post, frames = pre ++ bad :: post →
      (∀ f ∈ pre, (block env s.o.format f).isSome = true) →
      s.o.writer.acceptsAll (pre.filterMap (block env s.o.format)) = true →
      (block env s.o.format bad = none ∨
        ∃ blk, block env s.o.format bad = some blk ∧
          ((s.o.writer.afterBlocks (pre.filterMap (block env s.o.format))).Write blk).2.2 =
            true) →
      (runWorker env fuel s).wpc = .fatal ∧
      (runWorker env fuel s).o.outputChannel.queue = post ∧
      (runWorker env fuel s).trace =
        s.trace ++ (pre.map (okEvents env s.o.format)).flatten ++
          (if (block env s.o.format bad).isSome then writeFailEvents env s.o.format bad
            else failEvents env bad) ∧
      closeWaits (runWorker env fuel s).trace = closeWaits s.trace ∧
      (runWorker env fuel s).o.wait = s.o.wait ∧
      (∀ t c, step env t { runWorker env fuel s with cpc := c } = none)) ∧
    (s.o.outputChannel.closed = false →
      (∀ f ∈ frames, (block env s.o.format f).isSome = true) →
      s.o.writer.acceptsAll (frames.filterMap (block env s.o.format)) = true →
      (runWorker env fuel s).wpc = .recv ∧
      (runWorker env fuel s).o.outputChannel.queue = [] ∧
      (runWorker env fuel s).trace =
        s.trace ++ (frames.map (okEvents env s.o.format)).flatten ∧
      closeWaits (runWorker env fuel s).trace = closeWaits s.trace ∧
      (runWorker env fuel s).o.wait = s.o.wait) := by
  obtain ⟨k0, rfl⟩ : ∃ k, fuel = k + 1 := ⟨fuel - 1, by omega⟩
  have h0 : runWorker env (k0 + 1) s = runWorker env k0 { s with dt := env.empty, wpc := .recv } := by
    simp [runWorker, stepWorker, hpc]
  rw [h0]
  refine ⟨?_, ?_, ?_⟩
  · intro hclosed hall hacc
    obtain ⟨k, rfl⟩ : ∃ k, k0 = (k + 1 + 1) + 5 * frames.length := ⟨k0 - (5 * frames.length + 2), by omega⟩
    obtain ⟨s1, h1, hpc1, hch1, hw1, -, -, -, -, -, htr1⟩ :=
      runWorker_frames_accept env frames { s with dt := env.empty, wpc := .recv } (k + 1 + 1) []
        rfl (by simpa using hq) hall hacc
    have hq1 : s1.o.outputChannel.queue = [] := by rw [hch1]
    have hc1 : s1.o.outputChannel.closed = true := by rw [hch1]; exact hclosed
    rw [h1]
    simp only [runWorker, stepWorker, hpc1, hq1, hc1, if_true]
    rw [runWorker_returned env k _ rfl]
    refine ⟨rfl, hq1, ?_, ?_, rfl, hw1, ?_⟩
    · exact congrArg (· ++ [Event.closeWait]) htr1
    · show closeWaits (s1.trace ++ [Event.closeWait]) = _
      rw [htr1, closeWaits_append, closeWaits_append, closeWaits_okEvents]
      simp [closeWaits]
    · simp [stepCloser]
  · intro pre bad post hfr hall hacc hfail
    subst hfr
    obtain ⟨k, rfl⟩ : ∃ k, k0 = (k + 4) + 5 * pre.length :=
      ⟨k0 - (5 * pre.length + 4), by simp only [List.length_append, List.length_cons] at hfuel; omega⟩
    obtain ⟨s1, h1, hpc1, hch1, hw1, hfmt1, -, hwait1, -, -, htr1⟩ :=
      runWorker_frames_accept env pre { s with dt := env.empty, wpc := .recv } (k + 4)
        (bad :: post) rfl hq hall hacc
    rw [h1]
    rcases hfail with hbad | ⟨blk, hblk, hwerr⟩
    · obtain ⟨s2, h2, hpc2, hch2, -, hwait2, htr2⟩ :=
        runWorker_frame_bad env s1 (k + 1) bad post hpc1 (by rw [hch1]) (by rw [hfmt1]; exact hbad)
      rw [h2]
      refine ⟨hpc2, by rw [hch2, hch1], ?_, ?_, by rw [hwait2, hwait1], ?_⟩
      · rw [htr2, htr1, hbad]
        rfl
      · rw [htr2, htr1, closeWaits_append, closeWaits_append, closeWaits_okEvents,
          closeWaits_failEvents]
        rfl
      · intro t c
        exact step_fatal env t _ (Or.inl hpc2)
    · obtain ⟨s2, h2, hpc2, hch2, -, hwait2, htr2⟩ :=
        runWorker_frame_writefail env s1 k bad post blk hpc1 (by rw [hch1])
          (by rw [hfmt1]; exact hblk) (by rw [hw1]; exact hwerr)
      rw [h2]
      refine ⟨hpc2, by rw [hch2, hch1], ?_, ?_, by rw [hwait2, hwait1], ?_⟩
      · rw [htr2, htr1, hfmt1, hblk]
        rfl
      · rw [htr2, htr1, closeWaits_append, closeWaits_append, closeWaits_okEvents,
          closeWaits_writeFailEvents]
        rfl
      · intro t c
        exact step_fatal env t _ (Or.inl hpc2)
  · intro hopen hall hacc
    obtain ⟨k, rfl⟩ : ∃ k, k0 = k + 5 * frames.length := ⟨k0 - 5 * frames.length, by omega⟩
    obtain ⟨s1, h1, hpc1, hch1, -, -, -, hwait1, -, -, htr1⟩ :=
      runWorker_frames_accept env frames { s with dt := env.empty, wpc := .recv } k []
        rfl (by simpa using hq) hall hacc
    have hq1 : s1.o.outputChannel.queue = [] := by rw [hch1]
    have hc1 : s1.o.outputChannel.closed = false := by rw [hch1]; exact hopen
    rw [h1, runWorker_blocked env k s1 (by simp [stepWorker, hpc1, hq1, hc1])]
    refine ⟨hpc1, hq1, htr1, ?_, hwait1⟩
    rw [htr1, closeWaits_append, closeWaits_okEvents]
    rfl

/-! ## Interleaved executions -/

theorem Reachable.invariant {Record : Type} {env : Env Record} (P : State Record → Prop)
    (hstep : ∀ s s', P s → Step env s s' → P s') {s0 s : State Record}
    (h : Reachable env s0 s) (h0 : P s0) : P s := by
  induction h with
  | refl => exact h0
  | tail _ hs ih => exact hstep _ _ ih hs

theorem run_reachable {Record : Type} (env : Env Record) (sched : List Tid) :
    ∀ (s s' : State Record), run env sched s = some s' → Reachable env s s' := by
  induction sched with
  | nil =>
    intro s s' h
    simp only [run, Option.some.injEq] at h
    subst h
    exact Relation.ReflTransGen.refl
  | cons t ts ih =>
    intro s s' h
    simp only [run] at h
    cases ht : step env t s with
    | none => simp [ht] at h
    | some s1 =>
      simp only [ht] at h
      exact Relation.ReflTransGen.head ⟨t, ht⟩ (ih s1 s' h)

theorem step_producer {Record : Type} (env : Env Record) (s s' : State Record)
    (h : step env .producer s = some s') : stepSend s = some s' := by
  unfold step at h
  split at h
  · cases h
  · exact h

theorem step_worker {Record : Type} (env : Env Record) (s s' : State Record)
    (h : step env .worker s = some s') : stepWorker env s = some s' := by
  unfold step at h
  split at h
  · cases h
  · exact h

theorem step_closer {Record : Type} (env : Env Record) (s s' : State Record)
    (h : step env .closer s = some s') : stepCloser env s = some s' := by
  unfold step at h
  split at h
  · cases h
  · exact h

/-- The handshake: `o.wait` is closed exactly when the worker has returned, and
`Close` is past `<-o.wait` only when it is closed. -/
theorem handshake_step {Record : Type} (env : Env Record) (s s' : State Record)
    (hP : (s.o.wait = true ↔ s.wpc = .returned) ∧
      (s.cpc = .flush2 ∨ s.cpc = .returned → s.o.wait = true))
    (hs : Step env s s') :
    (s'.o.wait = true ↔ s'.wpc = .returned) ∧
      (s'.cpc = .flush2 ∨ s'.cpc = .returned → s'.o.wait = true) := by
  obtain ⟨hP1, hP2⟩ := hP
  obtain ⟨t, ht⟩ := hs
  cases t with
  | producer =>
    replace ht := step_producer env s s' ht
    simp only [stepSend] at ht
    split at ht
    · cases ht
    · split at ht
      · cases ht
        exact ⟨hP1, hP2⟩
      · cases ht
  | worker =>
    replace ht := step_worker env s s' ht
    simp only [stepWorker] at ht
    split at ht <;> (try split at ht) <;> (try split at ht) <;> cases ht <;>
      simp_all
  | closer =>
    replace ht := step_closer env s s' ht
    simp only [stepCloser] at ht
    split at ht <;> (try split at ht) <;> cases ht <;> simp_all

theorem quiescent_step {Record : Type} (env : Env Record) (W : Writer)
    (T : List (Event Record))
    (s s' : State Record)
    (hP : s.cpc = .returned ∧ s.wpc = .returned ∧ s.o.writer = W ∧ s.trace = T)
    (hs : Step env s s') :
    s'.cpc = .returned ∧ s'.wpc = .returned ∧ s'.o.writer = W ∧ s'.trace = T := by
  obtain ⟨hc, hw, hW, hT⟩ := hP
  obtain ⟨t, ht⟩ := hs
  cases t with
  | producer =>
    replace ht := step_producer env s s' ht
    simp only [stepSend] at ht
    split at ht
    · cases ht
    · split at ht
      · cases ht
        exact ⟨hc, hw, hW, hT⟩
      · cases ht
  | worker => simp [step, stepWorker, hw] at ht
  | closer => simp [step, stepCloser, hc] at ht

/-- C4: in every interleaving of the producer, `RunOutputLoop` and `Close`
started on a fresh sink: `o.wait` is closed exactly when the worker has
returned (so after its last write), `Close` is past `<-o.wait` only when
`o.wait` is closed, and once `Close` has returned the worker has returned too
and no later step changes the buffered writer or the destination or records
any further effect. -/
theorem Close_returns_after_worker {Record : Type} (env : Env Record) (dest : Dest)
    (format finish : TextFormatFunc Record) (pending : List Bytes) (s : State Record)
    (hreach : Reachable env (initState env dest format finish pending) s) :
    (s.o.wait = true ↔ s.wpc = .returned) ∧
    (s.cpc = .flush2 ∨ s.cpc = .returned → s.o.wait = true) ∧
    (s.cpc = .returned →
      s.wpc = .returned ∧
      ∀ s', Reachable env s s' → s'.o.writer = s.o.writer ∧ s'.trace = s.trace) := by
  have hinv := Reachable.invariant
    (fun s : State Record => (s.o.wait = true ↔ s.wpc = .returned) ∧
      (s.cpc = .flush2 ∨ s.cpc = .returned → s.o.wait = true))
    (handshake_step env) hreach (by simp [initState, NewTextOutput])
  refine ⟨hinv.1, hinv.2, ?_⟩
  intro hret
  have hw : s.wpc = .returned := hinv.1.mp (hinv.2 (Or.inr hret))
  refine ⟨hw, ?_⟩
  intro s' hs'
  have := Reachable.invariant
    (fun x : State Record => x.cpc = .returned ∧ x.wpc = .returned ∧
      x.o.writer = s.o.writer ∧ x.trace = s.trace)
    (quiescent_step env s.o.writer s.trace) hs' ⟨hret, hw, rfl, rfl⟩
  exact ⟨this.2.2.1, this.2.2.2⟩

theorem closer_fatals_step {Record : Type} (env : Env Record) (finish : TextFormatFunc Record)
    (s s' : State Record)
    (hP : s.o.writer.Healthy ∧ s.o.finish = finish ∧
      fatals .closer s.trace =
        if s.cpc = .finish then [] else if (finish env.empty).2 then [] else [.finishFailed])
    (hs : Step env s s') :
    s'.o.writer.Healthy ∧ s'.o.finish = finish ∧
      fatals .closer s'.trace =
        if s'.cpc = .finish then [] else if (finish env.empty).2 then [] else [.finishFailed] := by
  obtain ⟨hH, hfin, hfat⟩ := hP
  have hWr := fun p => Writer.Write_healthy s.o.writer p hH.1 hH.2
  have hFl := Writer.Flush_healthy s.o.writer hH.1 hH.2
  obtain ⟨t, ht⟩ := hs
  cases t with
  | producer =>
    replace ht := step_producer env s s' ht
    simp only [stepSend] at ht
    split at ht
    · cases ht
    · split at ht
      · cases ht
        exact ⟨hH, hfin, hfat⟩
      · cases ht
  | worker =>
    replace ht := step_worker env s s' ht
    simp only [stepWorker] at ht
    split at ht <;> (try split at ht) <;> (try split at ht) <;> cases ht <;>
      simp_all [fatals, Writer.Healthy, List.filterMap_append]
  | closer =>
    replace ht := step_closer env s s' ht
    simp only [stepCloser] at ht
    split at ht <;> (try split at ht) <;> cases ht <;>
      simp_all [fatals, Writer.Healthy, List.filterMap_append]

/-- C6: on a sink whose destination never fails, in every interleaving, once
`Close` has made its call of the finish function the fatal errors it has
reported are non-empty exactly when the finish function returns `ok = false`
for the empty record (the only one is then the finish failure); with
`DoNothing` as finish function `Close` always reports that fatal error. -/
theorem Close_fatal_iff_finish_not_ok {Record : Type} (env : Env Record) (dest : Dest)
    (format finish : TextFormatFunc Record) (pending : List Bytes) (s : State Record)
    (hroom : dest.room = none)
    (hreach : Reachable env (initState env dest format finish pending) s)
    (hcalled : s.cpc ≠ .finish) :
    (fatals .closer s.trace ≠ [] ↔ (finish env.empty).2 = false) ∧
    (fatals .closer s.trace = if (finish env.empty).2 then [] else [.finishFailed]) ∧
    (∀ s2, Reachable env (initState env dest format DoNothing pending) s2 →
      s2.cpc ≠ .finish → fatals .closer s2.trace = [.finishFailed]) := by
  have key : ∀ (fin : TextFormatFunc Record) (x : State Record),
      Reachable env (initState env dest format fin pending) x → x.cpc ≠ .finish →
      fatals .closer x.trace = if (fin env.empty).2 then [] else [.finishFailed] := by
    intro fin x hx hc
    have hinv := Reachable.invariant
      (fun y : State Record => y.o.writer.Healthy ∧ y.o.finish = fin ∧
        fatals .closer y.trace =
          if y.cpc = .finish then [] else if (fin env.empty).2 then [] else [.finishFailed])
      (closer_fatals_step env fin) hx
      (by simp [initState, NewTextOutput, NewWriter, Writer.Healthy, hroom, fatals])
    rw [hinv.2.2, if_neg hc]
  have h1 := key finish s hreach hcalled
  refine ⟨?_, h1, ?_⟩
  · rw [h1]
    cases (finish env.empty).2 <;> simp
  · intro s2 h2 hc2
    rw [key DoNothing s2 h2 hc2]
    simp [DoNothing]

/-- What a statement of the worker leaves alone. -/
theorem stepWorker_frame {Record : Type} (env : Env Record) (s s' : State Record)
    (ht : stepWorker env s = some s') :
    s'.cpc = s.cpc ∧ s'.o.finish = s.o.finish ∧ s'.o.format = s.o.format ∧
      writes .closer s'.trace = writes .closer s.trace ∧
      finishArgs s'.trace = finishArgs s.trace := by
  simp only [stepWorker] at ht
  split at ht <;> (try split at ht) <;> (try split at ht) <;> cases ht <;>
    simp [writes, finishArgs, List.filterMap_append]

theorem closer_trailer_step {Record : Type} (env : Env Record) (finish : TextFormatFunc Record)
    (s s' : State Record)
    (hP : s.o.finish = finish ∧
      (s.cpc = .finish → writes .closer s.trace = [] ∧ finishArgs s.trace = []) ∧
      (∀ buf, s.cpc = .write buf → buf = (finish env.empty).1 ∧
        writes .closer s.trace = [] ∧ finishArgs s.trace = [env.empty]) ∧
      (s.cpc ≠ .finish → s.cpc ≠ .fatal → (∀ buf, s.cpc ≠ .write buf) →
        writes .closer s.trace = [(finish env.empty).1] ∧ finishArgs s.trace = [env.empty]))
    (hs : Step env s s') :
    s'.o.finish = finish ∧
      (s'.cpc = .finish → writes .closer s'.trace = [] ∧ finishArgs s'.trace = []) ∧
      (∀ buf, s'.cpc = .write buf → buf = (finish env.empty).1 ∧
        writes .closer s'.trace = [] ∧ finishArgs s'.trace = [env.empty]) ∧
      (s'.cpc ≠ .finish → s'.cpc ≠ .fatal → (∀ buf, s'.cpc ≠ .write buf) →
        writes .closer s'.trace = [(finish env.empty).1] ∧ finishArgs s'.trace = [env.empty]) := by
  obtain ⟨hfin, h1, h2, h3⟩ := hP
  obtain ⟨t, ht⟩ := hs
  cases t with
  | producer =>
    replace ht := step_producer env s s' ht
    simp only [stepSend] at ht
    split at ht
    · cases ht
    · split at ht
      · cases ht
        exact ⟨hfin, h1, h2, h3⟩
      · cases ht
  | worker =>
    obtain ⟨e1, e2, -, e4, e5⟩ := stepWorker_frame env s s' (step_worker env s s' ht)
    rw [e1, e2, e4, e5]
    exact ⟨hfin, h1, h2, h3⟩
  | closer =>
    replace ht := step_closer env s s' ht
    simp only [stepCloser] at ht
    split at ht <;> (try split at ht) <;> cases ht <;>
      simp_all [writes, finishArgs, List.filterMap_append]

/-- C7: in every interleaving, whatever frames the worker handled, once `Close`
is past its `Write` it has called the finish function exactly once and has
written exactly one byte string, the one the finish function returns for the
empty record; so two runs on any two lists of frames (and any two
destinations) write the same trailer. -/
theorem Close_trailer_independent_of_frames {Record : Type} (env : Env Record)
    (dest1 dest2 : Dest) (format finish : TextFormatFunc Record)
    (frames1 frames2 : List Bytes) (s1 s2 : State Record)
    (h1 : Reachable env (initState env dest1 format finish frames1) s1)
    (h2 : Reachable env (initState env dest2 format finish frames2) s2)
    (hc1 : s1.cpc = .returned) (hc2 : s2.cpc = .returned) :
    writes .closer s1.trace = [(finish env.empty).1] ∧
    writes .closer s2.trace = writes .closer s1.trace ∧
    finishArgs s1.trace = [env.empty] ∧ finishArgs s2.trace = [env.empty] := by
  have key : ∀ (d : Dest) (fr : List Bytes) (x : State Record),
      Reachable env (initState env d format finish fr) x → x.cpc = .returned →
      writes .closer x.trace = [(finish env.empty).1] ∧ finishArgs x.trace = [env.empty] := by
    intro d fr x hx hc
    have hinv := Reachable.invariant
      (fun y : State Record => y.o.finish = finish ∧
        (y.cpc = .finish → writes .closer y.trace = [] ∧ finishArgs y.trace = []) ∧
        (∀ buf, y.cpc = .write buf → buf = (finish env.empty).1 ∧
          writes .closer y.trace = [] ∧ finishArgs y.trace = [env.empty]) ∧
        (y.cpc ≠ .finish → y.cpc ≠ .fatal → (∀ buf, y.cpc ≠ .write buf) →
          writes .closer y.trace = [(finish env.empty).1] ∧ finishArgs y.trace = [env.empty]))
      (closer_trailer_step env finish) hx
      (by simp [initState, NewTextOutput, writes, finishArgs])
    exact hinv.2.2.2 (by simp [hc]) (by simp [hc]) (by simp [hc])
  obtain ⟨a1, a2⟩ := key dest1 frames1 s1 h1 hc1
  obtain ⟨b1, b2⟩ := key dest2 frames2 s2 h2 hc2
  exact ⟨a1, by rw [a1, b1], a2, b2⟩

theorem runFrom_reachable {Record : Type} (env : Env Record) (sched : List Tid)
    (s : State Record) : Reachable env s (runFrom env sched s) := by
  unfold runFrom
  cases h : run env sched s with
  | none => exact Relation.ReflTransGen.refl
  | some s' => exact run_reachable env sched s s' h

/-! ## Construction -/

/-- C9: `NewTextOutputFromFilename`, for every file name and every outcome of
`os.Create`: for `""` and `"-"` it returns a sink on standard output and a nil
error without calling `os.Create`; for any other name it calls `os.Create` on
that name, once, and returns a sink on the created file and a nil error when
the creation succeeds, a nil sink and the creation error when it fails. -/
theorem NewTextOutputFromFilename_cases {Record File Err : Type} (env : Env Record)
    (create : String → Except Err File) (stream : Target File → Dest) (fname : String)
    (format finish : TextFormatFunc Record) :
    ((fname = "" ∨ fname = "-") →
      (NewTextOutputFromFilename env create stream fname format finish).o =
          some (NewTextOutput env (stream .stdout) format finish) ∧
        (NewTextOutputFromFilename env create stream fname format finish).err = none ∧
        (NewTextOutputFromFilename env create stream fname format finish).created = []) ∧
    (¬ (fname = "" ∨ fname = "-") →
      (NewTextOutputFromFilename env create stream fname format finish).created = [fname] ∧
      (∀ w, create fname = .ok w →
        (NewTextOutputFromFilename env create stream fname format finish).o =
            some (NewTextOutput env (stream (.file w)) format finish) ∧
          (NewTextOutputFromFilename env create stream fname format finish).err = none) ∧
      (∀ e, create fname = .error e →
        (NewTextOutputFromFilename env create stream fname format finish).o = none ∧
          (NewTextOutputFromFilename env create stream fname format finish).err = some e)) := by
  constructor
  · intro h
    simp [NewTextOutputFromFilename, h]
  · intro h
    unfold NewTextOutputFromFilename
    rw [if_neg h]
    cases hc : create fname with
    | error e => simp
    | ok w => simp

/-! ## Concrete runs -/

/-- C1, evaluated: the single frame `[10]` is put on the channel of a running
worker, then `Close` is called while the frame is still queued; when `Close`
returns the destination holds the trailer `99` followed by the block `10`, not
the block followed by the trailer. -/
theorem Close_writes_trailer_before_queued_frame :
    (run demoEnv closeFirstSchedule
        (initState demoEnv ⟨[], none⟩ demoFormat demoFinish [[10]])).map
      (fun s => (s.pending, s.cpc, s.wpc, s.o.writer.wr.data, s.o.writer.buf)) =
      some ([], .returned, .returned, [99, 10], []) ∧
    blocks demoEnv demoFormat [[10]] ++ (demoFinish demoEnv.empty).1 = [10, 99] := by
  decide

/-- C2, evaluated: with two frames still queued when `Close` is called, the
`Write` of the trailer by `Close` comes before the `Write` calls of the worker
for these two frames, and the destination ends as block, trailer, block,
block. -/
theorem Close_trailer_write_precedes_item_writes :
    (run demoEnv closeMidSchedule
        (initState demoEnv ⟨[], none⟩ demoFormat demoFinish [[10], [20], [30]])).map
      (fun s => (s.cpc, s.wpc, s.o.writer.wr.data)) =
      some (.returned, .returned, [10, 99, 20, 30]) ∧
    (run demoEnv closeMidSchedule
        (initState demoEnv ⟨[], none⟩ demoFormat demoFinish [[10], [20], [30]])).map
      (fun s => writeEvents s.trace) =
      some [(.worker, [10]), (.closer, [99]), (.worker, [20]), (.worker, [30])] := by
  decide

/-- C5, evaluated on a destination that rejects every byte.  One frame: the
loop returns without any fatal report, the block is left in the buffer.  Two
frames: the failure of the first is reported only by the `Write` of the second,
after the second frame has been decoded and formatted (the process then ends
in `log.Fatalf`).  `Close` alone: it returns without any fatal report, the
trailer is left in the buffer. -/
theorem destination_failure_not_reported :
    (fatals .worker (runWorker demoEnv 8 (demoState ⟨[], some 0⟩ [[10]] true)).trace = [] ∧
      (runWorker demoEnv 8 (demoState ⟨[], some 0⟩ [[10]] true)).wpc = .returned ∧
      (runWorker demoEnv 8 (demoState ⟨[], some 0⟩ [[10]] true)).o.writer =
        { size := 4096, buf := [10], err := true, wr := ⟨[], some 0⟩ }) ∧
    ((runWorker demoEnv 11 (demoState ⟨[], some 0⟩ [[10], [20]] true)).trace =
        [.unmarshal [10], .formatCall 10, .write .worker [10], .flush .worker,
          .unmarshal [20], .formatCall 20, .write .worker [20],
          .fatal .worker .writeFailed] ∧
      (runWorker demoEnv 11 (demoState ⟨[], some 0⟩ [[10], [20]] true)).wpc = .fatal) ∧
    (run demoEnv closeOnlySchedule
        (initState demoEnv ⟨[], some 0⟩ demoFormat demoFinish [])).map
      (fun s => (s.cpc, fatals .closer s.trace, s.o.writer)) =
      some (.returned, [], { size := 4096, buf := [99], err := true, wr := ⟨[], some 0⟩ }) := by
  decide

/-- C8, as stated, fails: on a closed channel holding frame `[1]` and frame
`[200]`, for which the format function returns `ok = false`, the worker writes
the first block, reports the format failure and the process ends in
`log.Fatalf`; `o.wait` was never closed and a caller of `Close` standing at
`<-o.wait` takes no step. -/
theorem RunOutputLoop_format_failure_leaves_wait_open :
    (runWorker demoEnv 13 (demoState ⟨[], none⟩ [[1], [200]] true)).wpc = .fatal ∧
    fatals .worker (runWorker demoEnv 13 (demoState ⟨[], none⟩ [[1], [200]] true)).trace =
      [.formatFailed] ∧
    closeWaits (runWorker demoEnv 13 (demoState ⟨[], none⟩ [[1], [200]] true)).trace = 0 ∧
    (runWorker demoEnv 13 (demoState ⟨[], none⟩ [[1], [200]] true)).o.wait = false ∧
    (runWorker demoEnv 13 (demoState ⟨[], none⟩ [[1], [200]] true)).o.writer.wr.data = [1] ∧
    (step demoEnv .closer
      { runWorker demoEnv 13 (demoState ⟨[], none⟩ [[1], [200]] true) with
        cpc := .wait }).isSome = false := by
  decide

/-! ## Instances of the theorems -/

/-- Instance of C3: frames `[1]`, `[2]` are written, the two-byte frame
`[3, 3]` fails to decode and ends the process, frame `[4]` stays in the
channel. -/
theorem RunOutputLoop_stops_at_first_failure_witness :
    block demoEnv demoFormat [3, 3] = none ∧
    (runWorker demoEnv 15 (demoState ⟨[], none⟩ [[1], [2], [3, 3], [4]] false)).wpc = .fatal ∧
    (runWorker demoEnv 15 (demoState ⟨[], none⟩ [[1], [2], [3, 3], [4]] false)).o.writer.wr.data =
      [1, 2] ∧
    (runWorker demoEnv 15
      (demoState ⟨[], none⟩ [[1], [2], [3, 3], [4]] false)).o.outputChannel.queue = [[4]] :=
  have h := RunOutputLoop_stops_at_first_failure demoEnv
    (demoState ⟨[], none⟩ [[1], [2], [3, 3], [4]] false) [[1], [2]] [3, 3] [[4]] 15
    rfl rfl ⟨rfl, rfl⟩ rfl (by decide) (by decide) (by decide)
  ⟨by decide, h.1, h.2.2.2.1, h.2.2.2.2.2.1⟩

/-- Instance of C10: after two of three frames the buffer is empty and the
destination holds their two blocks. -/
theorem RunOutputLoop_flushes_every_record_witness :
    (runWorker demoEnv 11 (demoState ⟨[], none⟩ [[1], [2], [3]] false)).o.writer.buf = [] ∧
    (runWorker demoEnv 11 (demoState ⟨[], none⟩ [[1], [2], [3]] false)).o.writer.wr.data =
      [1, 2] :=
  have h := RunOutputLoop_flushes_every_record demoEnv
    (demoState ⟨[], none⟩ [[1], [2], [3]] false) [[1], [2], [3]] 2
    rfl rfl ⟨rfl, rfl⟩ rfl (by decide) (by decide)
  ⟨h.2.2.1, h.2.2.2⟩

/-- Instance of C8, amended: on a closed channel holding two frames that
decode and format, over a destination that never fails, the worker returns and
has closed `o.wait` once. -/
theorem RunOutputLoop_closes_wait_on_drain_only_witness :
    (runWorker demoEnv 13 (demoState ⟨[], none⟩ [[1], [2]] true)).wpc = .returned ∧
    closeWaits (runWorker demoEnv 13 (demoState ⟨[], none⟩ [[1], [2]] true)).trace = 1 :=
  have h := (RunOutputLoop_closes_wait_on_drain_only demoEnv
    (demoState ⟨[], none⟩ [[1], [2]] true) [[1], [2]] 13 rfl rfl (by decide)).1
    rfl (by decide) (by decide)
  ⟨h.1, h.2.2.2.1⟩

/-- Instance of C4: at the end of `closeFirstSchedule` `Close` has returned, and
so has the worker. -/
theorem Close_returns_after_worker_witness :
    (runFrom demoEnv closeFirstSchedule
      (initState demoEnv ⟨[], none⟩ demoFormat demoFinish [[10]])).cpc = .returned ∧
    (runFrom demoEnv closeFirstSchedule
      (initState demoEnv ⟨[], none⟩ demoFormat demoFinish [[10]])).wpc = .returned :=
  ⟨by decide,
    ((Close_returns_after_worker demoEnv ⟨[], none⟩ demoFormat demoFinish [[10]] _
      (runFrom_reachable demoEnv closeFirstSchedule _)).2.2 (by decide)).1⟩

/-- Instance of C6: at the end of `closeMidSchedule`, with a finish function
that returns `ok = true`, `Close` has reported nothing. -/
theorem Close_fatal_iff_finish_not_ok_witness :
    fatals .closer (runFrom demoEnv closeMidSchedule
      (initState demoEnv ⟨[], none⟩ demoFormat demoFinish [[10], [20], [30]])).trace = [] :=
  (Close_fatal_iff_finish_not_ok demoEnv ⟨[], none⟩ demoFormat demoFinish [[10], [20], [30]] _
    rfl (runFrom_reachable demoEnv closeMidSchedule _) (by decide)).2.1

/-- Instance of C7: the runs of `closeFirstSchedule` on one frame and of
`closeMidSchedule` on three frames write the same trailer. -/
theorem Close_trailer_independent_of_frames_witness :
    writes .closer (runFrom demoEnv closeMidSchedule
      (initState demoEnv ⟨[], none⟩ demoFormat demoFinish [[10], [20], [30]])).trace =
    writes .closer (runFrom demoEnv closeFirstSchedule
      (initState demoEnv ⟨[], none⟩ demoFormat demoFinish [[10]])).trace :=
  (Close_trailer_independent_of_frames demoEnv ⟨[], none⟩ ⟨[], none⟩ demoFormat demoFinish
    [[10]] [[10], [20], [30]] _ _
    (runFrom_reachable demoEnv closeFirstSchedule _)
    (runFrom_reachable demoEnv closeMidSchedule _) (by decide) (by decide)).2.1

end Dnstap
